import Mathlib

/-!
# Verification of the RAG_QA retrieval pipeline

A shallow embedding, in Lean 4, of the core of the RAG_QA repository:

* `DocumentProcessor._split_text` (src/document_processor.py) — sentence
  segmentation and chunk accumulation, modelled on `List Char`;
* `VectorStore` (src/vector_store.py) — build/search/save/load over an
  abstract vector type `V`, with the embedding model and FAISS behaviour
  made explicit (scores are abstracted from floats to `Int`: none of the
  properties below depends on float arithmetic, only on selection and
  on the integer index positions FAISS returns);
* `ZhipuAIClient.generate_response` (src/zhipu_client.py) — the retry
  loop, with the network modelled as an oracle `Nat → ApiResp` giving
  the outcome of each attempt;
* `RAGSystem.ask_question` (src/rag_system.py) — the orchestrator,
  returning a total `QAResponse` (exceptions of the Python code are
  `Except` values; the orchestrator's `try/except` is the `match` on
  them).

Mutating methods are modelled as state transformers returning
`Except err Unit × State`, so that the post-state of a *failing* call is
visible — several properties below are about exactly that state.
-/

namespace RagQA

/-! ## Chunker: `DocumentProcessor._split_text`

Text is `List Char`.  Python's `str.strip()` / `\s` are modelled with
`Char.isWhitespace` (the inputs of interest are ASCII, where the two
agree). -/

/-- Python's `\s` (and `str.strip()`'s default set), restricted to the
whitespace characters `Char.isWhitespace` knows. -/
def pySpace (c : Char) : Bool := c.isWhitespace

/-- The sentence-ending marks of the regex `[。！？\.!?]` in
`_split_text` (src/document_processor.py line 98). -/
def isSentenceEnd (c : Char) : Bool :=
  c = '。' || c = '！' || c = '？' || c = '.' || c = '!' || c = '?'

/-- Cut the text after every sentence-ending mark, keeping everything
(the whitespace the regex separator would consume stays at the head of
the following segment).  `acc` is the current segment, reversed. -/
def splitAfterPunct : List Char → List Char → List (List Char)
  | [], acc => [acc.reverse]
  | c :: rest, acc =>
    if isSentenceEnd c then
      (acc.reverse ++ [c]) :: splitAfterPunct rest []
    else
      splitAfterPunct rest (c :: acc)

/-- `re.split(r'(?<=[。！？\.!?])\s*', text)` (line 98): cut after every
sentence-ending mark, the separator `\s*` consuming the whitespace run
that follows it — equivalently, each segment after the first loses its
leading whitespace (whitespace is never a sentence-ending mark, so the
two readings agree). -/
def splitSentences (text : List Char) : List (List Char) :=
  match splitAfterPunct text [] with
  | [] => []
  | first :: rest => first :: rest.map (·.dropWhile pySpace)

/-- Remove trailing whitespace (half of Python's `str.strip()`). -/
def dropTrail (l : List Char) : List Char :=
  (l.reverse.dropWhile pySpace).reverse

/-- Python's `str.strip()`. -/
def stripChars (l : List Char) : List Char :=
  (dropTrail l).dropWhile pySpace

/-- The accumulation loop of `_split_text` (lines 100–126).  `chunksRev`
holds the emitted chunks most recent first (so Python's `chunks[-1]` is
its head); `current` is `current_chunk`.  `csize` and `ov` are the
configured `chunk_size` and `chunk_overlap` (Python `int`s, hence
`Int`). -/
def splitTextLoop (csize ov : Int) :
    List (List Char) → List (List Char) → List Char → List (List Char)
  | [], chunksRev, current =>
    -- lines 124–126: `if current_chunk: chunks.append(current_chunk.strip())`
    (if current ≠ [] then stripChars current :: chunksRev else chunksRev).reverse
  | s :: rest, chunksRev, current =>
    let t := stripChars s
    if t = [] then
      -- lines 104–106: `if not sentence: continue`
      splitTextLoop csize ov rest chunksRev current
    else if ((current.length : Int) + t.length ≤ csize) then
      -- lines 109–110: `current_chunk += sentence + " "`
      splitTextLoop csize ov rest chunksRev (current ++ t ++ [' '])
    else
      -- lines 112–114: close the current chunk
      let chunksRev' := if current ≠ [] then stripChars current :: chunksRev else chunksRev
      -- lines 116–122: start the next chunk, seeded with the tail of the
      -- previous emitted chunk when `chunk_overlap > 0 and chunks`
      let current' :=
        if ov > 0 then
          match chunksRev' with
          | lastChunk :: _ =>
            -- `overlap_start = max(0, len(last_chunk) - overlap)`
            lastChunk.drop ((lastChunk.length : Int) - ov).toNat ++ [' '] ++ t ++ [' ']
          | [] => t ++ [' ']
        else t ++ [' ']
      splitTextLoop csize ov rest chunksRev' current'

/-- `DocumentProcessor._split_text` (lines 95–128). -/
def splitText (csize ov : Int) (text : List Char) : List (List Char) :=
  splitTextLoop csize ov (splitSentences text) [] []

/-- The sentences as the loop sees them: stripped, empties dropped. -/
def cleanedOf (ss : List (List Char)) : List (List Char) :=
  (ss.map stripChars).filter (· ≠ [])

/-- `' ' :: t₁ ++ ' ' :: t₂ ++ ⋯` — what joining `ts` onto a preceding
sentence with single spaces appends. -/
def tailJoin (ts : List (List Char)) : List Char :=
  ts.foldr (fun t r => ' ' :: (t ++ r)) []

/-- The sentences rejoined with single spaces — what a chunk holding all
of them reads as. -/
def joinAll : List (List Char) → List Char
  | [] => []
  | t :: ts => t ++ tailJoin ts

/-- The longest stripped sentence length of a segmentation (0 if none). -/
def maxSentLen (ss : List (List Char)) : Int :=
  ss.foldr (fun s m => max ((stripChars s).length : Int) m) 0

/-! ## VectorStore (src/vector_store.py)

The embedding model is an oracle `encode : List String → Except PyErr
(List V)` over an abstract vector type `V`; `normalize` models
`faiss.normalize_L2` and `ip` the inner product, with scores abstracted
to `Int`.  Mutating methods return `Except PyErr Unit × State` so the
post-state of a failing call is explicit. -/

/-- A chunk dictionary as built by
`DocumentProcessor.split_documents` (src/document_processor.py
lines 84–90). -/
structure Chunk where
  fileName : String
  content : String
  chunkId : Nat
  ty : String
  deriving DecidableEq, Repr

/-- The Python exceptions the modelled code raises, together with the
designated error kinds of the specification's taxonomy (§7) —
`emptyCorpus`, `corruptIndex`, `saveFailed` are *never produced by the
code*; they are present so that claims about them are statable. -/
inductive PyErr where
  | runtimeError (msg : String)
  | fileNotFoundError (msg : String)
  | indexError (msg : String)
  | valueError (msg : String)
  | exception (msg : String)
  | emptyCorpus
  | corruptIndex
  | saveFailed
  deriving DecidableEq, Repr

/-- Python's `str(e)` as the orchestrator uses it. -/
def PyErr.str : PyErr → String
  | .runtimeError m => m
  | .fileNotFoundError m => m
  | .indexError m => m
  | .valueError m => m
  | .exception m => m
  | .emptyCorpus => "EmptyCorpus"
  | .corruptIndex => "CorruptIndex"
  | .saveFailed => "SaveFailed"

/-- `faiss.IndexFlatIP`: the stored (normalized) vectors, in insertion
order; `ntotal` is their number. -/
structure FaissIndexIP (V : Type) where
  vecs : List V
  deriving DecidableEq, Repr

/-- The mutable state of a `VectorStore` (lines 24–30): whether
`self.model` is set, `self.index`, `self.chunks`. -/
structure VectorStore (V : Type) where
  modelLoaded : Bool
  index : Option (FaissIndexIP V)
  chunks : List Chunk
  deriving DecidableEq, Repr

/-- A search result: a copy of the chunk dictionary with
`similarity_score` added (lines 99–101). -/
structure SearchResult (V : Type) where
  chunk : Chunk
  score : Int
  deriving DecidableEq, Repr

/-- `VectorStore.build_index` (lines 53–79).  Note the order of events
of the source: `self.chunks` is replaced (line 65) *before* the
embedding call (line 69) and before the new FAISS index replaces the
old one (line 73), so a failing embedding leaves the new chunk list
next to the previous index.  On an empty batch the dimension read
`embeddings.shape[1]` (line 72) raises `IndexError` (the embedding
model returns an empty array for an empty input list). -/
def buildIndex {V : Type} (faissAvailable : Bool)
    (encode : List String → Except PyErr (List V)) (normalize : V → V)
    (st : VectorStore V) (newChunks : List Chunk) :
    Except PyErr Unit × VectorStore V :=
  if ¬faissAvailable then (.error (.runtimeError "FAISS不可用，无法构建向量索引"), st)
  else if ¬st.modelLoaded then (.error (.runtimeError "嵌入模型未初始化"), st)
  else
    let texts := newChunks.map (·.content)
    let st1 := { st with chunks := newChunks }
    match encode texts with
    | .error e => (.error e, st1)
    | .ok embs =>
      match embs with
      | [] => (.error (.indexError "tuple index out of range"), st1)
      | _ :: _ => (.ok (), { st1 with index := some ⟨embs.map normalize⟩ })

/-- FAISS's padding score for result slots beyond `ntotal` (the most
negative float, abstracted to a fixed very negative integer). -/
def negInfScore : Int := -(2 ^ 128)

/-- Descending insertion keeping earlier-inserted elements first among
equal scores. -/
def insertDesc (x : Int × Int) : List (Int × Int) → List (Int × Int)
  | [] => [x]
  | y :: ys => if x.1 > y.1 then x :: y :: ys else y :: insertDesc x ys

/-- Stable sort by descending score (ties keep insertion order), the
order `faiss.IndexFlatIP.search` reports results in. -/
def sortDesc (l : List (Int × Int)) : List (Int × Int) :=
  l.foldl (fun acc x => insertDesc x acc) []

/-- `faiss.IndexFlatIP.search` for one query: requires `k > 0` (FAISS
throws otherwise), scores every stored vector by inner product with the
query, reports the `k` best `(score, position)` pairs in descending
score order and, when fewer than `k` vectors are stored, pads the
result up to `k` entries with position `-1` and the most negative
score. -/
def faissSearchIP {V : Type} (ip : V → V → Int) (idx : FaissIndexIP V)
    (q : V) (k : Int) : Except PyErr (List (Int × Int)) :=
  if k ≤ 0 then .error (.runtimeError "Error: 'k > 0' failed")
  else
    let scored := idx.vecs.enum.map (fun p => (ip q p.2, (p.1 : Int)))
    let taken := (sortDesc scored).take k.toNat
    .ok (taken ++ List.replicate (k.toNat - taken.length) (negInfScore, -1))

/-- Python list indexing `l[i]`: negative indices count from the end;
out-of-range raises `IndexError`. -/
def pyIndex {α : Type} (l : List α) (i : Int) : Except PyErr α :=
  if i < 0 then
    if (l.length : Int) + i < 0 then .error (.indexError "list index out of range")
    else
      match l.get? ((l.length : Int) + i).toNat with
      | some a => .ok a
      | none => .error (.indexError "list index out of range")
  else
    match l.get? i.toNat with
    | some a => .ok a
    | none => .error (.indexError "list index out of range")

/-- The result loop of `VectorStore.search` (lines 96–101): keep every
`(score, idx)` with `idx < len(self.chunks)` and look the chunk up by
`self.chunks[idx]` — Python indexing, so the FAISS padding index `-1`
passes the bound check and resolves to the *last* stored chunk. -/
def collectResults {V : Type} (chunks : List Chunk) :
    List (Int × Int) → Except PyErr (List (SearchResult V))
  | [] => .ok []
  | (score, i) :: rest =>
    if i < (chunks.length : Int) then
      match pyIndex chunks i with
      | .error e => .error e
      | .ok c =>
        match collectResults chunks rest with
        | .error e => .error e
        | .ok rs => .ok (⟨c, score⟩ :: rs)
    else collectResults chunks rest

/-- `VectorStore.search` (lines 81–104).  Does not mutate the store. -/
def searchStore {V : Type} (encode : List String → Except PyErr (List V))
    (normalize : V → V) (ip : V → V → Int) (st : VectorStore V)
    (query : String) (topK : Int) : Except PyErr (List (SearchResult V)) :=
  match st.index with
  | none => .error (.runtimeError "向量索引未构建，请先调用 build_index()")
  | some idx =>
    match encode [query] with
    | .error e => .error e
    | .ok qembs =>
      match qembs with
      | [qe] =>
        match faissSearchIP ip idx (normalize qe) topK with
        | .error e => .error e
        | .ok pairs => collectResults st.chunks pairs
      | _ => .error (.valueError "unexpected embedding batch shape")

/-- The two artifacts persisted under one path: `index.faiss` and
`chunks.pkl` (`none` = the file does not exist). -/
structure ArtifactStore (V : Type) where
  faissFile : Option (List V)
  chunksFile : Option (List Chunk)
  deriving DecidableEq, Repr

/-- `VectorStore.save_index` (lines 106–120): writes `index.faiss`
(line 114) and then `chunks.pkl` (lines 117–118), sequentially.
`writeFaissOk`/`writeChunksOk` say whether each write succeeds (a
failure, e.g. of `makedirs`/`write_index`/`pickle.dump`, propagates as
the underlying raw error).  The in-memory store is not mutated. -/
def saveIndex {V : Type} (st : VectorStore V) (fs : ArtifactStore V)
    (writeFaissOk writeChunksOk : Bool) : Except PyErr Unit × ArtifactStore V :=
  match st.index with
  | none => (.error (.runtimeError "没有可保存的索引"), fs)
  | some idx =>
    if ¬writeFaissOk then (.error (.exception "write_index failed"), fs)
    else
      let fs1 := { fs with faissFile := some idx.vecs }
      if ¬writeChunksOk then (.error (.exception "pickle dump failed"), fs1)
      else (.ok (), { fs1 with chunksFile := some st.chunks })

/-- `VectorStore.load_index` (lines 122–139): `self.index` is replaced
(line 132) *before* `chunks.pkl` is opened (line 136), so a missing
chunk artifact raises `FileNotFoundError` with the new vectors already
installed next to the old chunks.  No consistency check between the two
artifacts is performed. -/
def loadIndex {V : Type} (faissAvailable : Bool) (fs : ArtifactStore V)
    (st : VectorStore V) : Except PyErr Unit × VectorStore V :=
  if ¬faissAvailable then (.error (.runtimeError "FAISS不可用，无法加载向量索引"), st)
  else
    match fs.faissFile with
    | none => (.error (.fileNotFoundError "索引文件不存在"), st)
    | some vs =>
      let st1 := { st with index := some ⟨vs⟩ }
      match fs.chunksFile with
      | none => (.error (.fileNotFoundError "chunks.pkl"), st1)
      | some cs => (.ok (), { st1 with chunks := cs })

/-- The core invariant of the specification (§3 Index): the stored
chunk and vector sequences have equal length (when an index is
present). -/
def countsInSync {V : Type} (st : VectorStore V) : Prop :=
  ∀ idx, st.index = some idx → idx.vecs.length = st.chunks.length

/-! ## Generation client (src/zhipu_client.py)

The network is an oracle `Nat → ApiResp` giving each attempt's outcome
*after* JSON decoding: a transport failure (timeout, connection error,
non-2xx status from `raise_for_status`, or an undecodable body —
`requests` raises its `JSONDecodeError` as a `RequestException`) or a
decoded body, given by its `choices` contents and optional
`error.message` field. -/

/-- One message of a conversation. -/
structure Msg where
  role : String
  content : String
  deriving DecidableEq, Repr

/-- The outcome of one HTTP attempt, seen from line 67 onwards. -/
inductive ApiResp where
  | transportErr (msg : String)
  | ok (choices : List String) (errField : Option String)
  deriving DecidableEq, Repr

/-- Python's `str.strip()` on `String`. -/
def pyStrip (s : String) : String := ⟨stripChars s.data⟩

/-- The retry loop of `ZhipuAIClient.generate_response`
(lines 57–90): `attempt` is the Python loop variable, `remaining` the
iterations `range(max_retries)` still has.  Returns the result together
with the number of attempts used.  A transport failure retries unless
it was the last attempt (lines 78–81); a decoded body without a
non-empty `choices` list raises immediately — `API返回错误` if the body
has an `error` field, a parse failure otherwise (lines 83–88). -/
def genLoop (resp : Nat → ApiResp) : Nat → Nat → Except PyErr String × Nat
  | attempt, 0 => (.error (.exception "API调用失败，已达到最大重试次数"), attempt)
  | attempt, remaining + 1 =>
    match resp attempt with
    | .transportErr e =>
      if remaining = 0 then
        (.error (.exception ("API请求失败，已重试 3 次: " ++ e)), attempt + 1)
      else genLoop resp (attempt + 1) remaining
    | .ok choices errField =>
      match choices with
      | c :: _ => (.ok (pyStrip c), attempt + 1)
      | [] =>
        match errField with
        | some m => (.error (.exception ("API返回错误: " ++ m)), attempt + 1)
        | none =>
          (.error (.exception "API响应解析失败: API响应格式异常"), attempt + 1)

/-- `ZhipuAIClient.generate_response` with `max_retries = 3`
(line 17), instrumented with the number of attempts used. -/
def generateResponse (resp : Nat → ApiResp) : Except PyErr String × Nat :=
  genLoop resp 0 3

/-- The message list `ZhipuAIClient.chat` builds (lines 107–118);
Python's truthiness skips an empty system prompt. -/
def buildChatMessages (userMessage : String) (systemPrompt : Option String)
    (history : List Msg) : List Msg :=
  (match systemPrompt with
    | some sp => if sp = "" then [] else [⟨"system", sp⟩]
    | none => []) ++ history ++ [⟨"user", userMessage⟩]

/-- `ZhipuAIClient.chat` (lines 92–120); `net` maps a request's
message list to its per-attempt outcomes. -/
def chat (net : List Msg → Nat → ApiResp) (userMessage : String)
    (systemPrompt : Option String) (history : List Msg) : Except PyErr String :=
  (generateResponse (net (buildChatMessages userMessage systemPrompt history))).1

/-- The default RAG system prompt of `ZhipuAIClient.rag_chat`
(lines 139–145). -/
def defaultRagSystemPrompt : String :=
  "你是一个智能助手，基于用户提供的参考信息来回答问题。\n请遵循以下规则：\n" ++
  "1. 仔细阅读参考信息，确保回答准确\n2. 如果参考信息中包含答案，请基于参考信息回答\n" ++
  "3. 如果参考信息中没有答案，请明确说明并基于你的知识回答\n4. 回答要简洁明了，重点突出\n" ++
  "5. 如果参考信息不相关或不足以回答问题，请诚实说明"

/-- The context-bearing user message `rag_chat` builds (lines 150–158). -/
def ragUserMessage (question context : String) : String :=
  "请基于以下参考信息回答问题：\n\n参考信息：\n" ++ context ++
  "\n\n问题：\n" ++ question ++ "\n\n请基于参考信息回答问题，如果参考信息不够充分，请说明。"

/-- `ZhipuAIClient.rag_chat` (lines 122–160). -/
def ragChat (net : List Msg → Nat → ApiResp) (question context : String)
    (systemPrompt : Option String) : Except PyErr String :=
  let sp := match systemPrompt with
    | none => defaultRagSystemPrompt
    | some s => if s = "" then defaultRagSystemPrompt else s
  chat net (ragUserMessage question context) (some sp) []

/-! ## Configuration and orchestrator (src/config.py, src/rag_system.py) -/

/-- The configuration values `RAGSystem.ask_question` reads
(src/config.py lines 19–23); the environment defaults are
`CHUNK_SIZE=500`, `CHUNK_OVERLAP=50`, `MAX_RETRIEVAL_DOCS=3`. -/
structure ConfigT where
  chunkSize : Int
  chunkOverlap : Int
  maxRetrievalDocs : Int
  deriving DecidableEq, Repr

/-- The configuration with every environment variable unset. -/
def defaultConfig : ConfigT := ⟨500, 50, 3⟩

/-- The orchestrator state `ask_question` depends on. -/
structure RAGSystem (V : Type) where
  isInitialized : Bool
  vectorStore : VectorStore V
  deriving DecidableEq, Repr

/-- The collaborator oracles of one `ask_question` call. -/
structure Oracles (V : Type) where
  encode : List String → Except PyErr (List V)
  normalize : V → V
  ip : V → V → Int
  net : List Msg → Nat → ApiResp

/-- The response dictionary of `ask_question`.  Keys a branch does not
set (`question` in the not-initialized reply; `references` and
`context_used` in the exception reply) are modelled as `none` / `[]` /
`""`; the wall-clock `performance` block is not modelled. -/
structure QAResponse (V : Type) where
  success : Bool
  question : Option String
  answer : String
  references : List (SearchResult V)
  contextUsed : String
  error : Option String
  deriving DecidableEq, Repr

/-- Line 112: `top_k = top_k or Config.MAX_RETRIEVAL_DOCS` — Python's
`or` replaces both `None` and `0` by the configured default. -/
def resolveTopK (maxRetrievalDocs : Int) (topK : Option Int) : Int :=
  match topK with
  | none => maxRetrievalDocs
  | some v => if v = 0 then maxRetrievalDocs else v

/-- The context block of lines 120–129, one part per reference
(integer scores stand in for the `:.4f`-formatted floats). -/
def buildContext {V : Type} (refs : List (SearchResult V)) : String :=
  String.intercalate "\n\n" (refs.enum.map (fun p =>
    "[文档 " ++ toString (p.1 + 1) ++ "] 来源: " ++ p.2.chunk.fileName ++
    "\n内容: " ++ p.2.chunk.content ++ "\n相似度: " ++ toString p.2.score))

/-- `RAGSystem.ask_question` (lines 87–169).  Total: every failure of
the collaborators is an `Except.error` the `match`es turn into a
`success = false` response, mirroring the `try/except` at lines
111–169; nothing escapes to the caller. -/
def askQuestion {V : Type} (orc : Oracles V) (cfg : ConfigT)
    (st : RAGSystem V) (question : String) (topK : Option Int)
    (includeRefs : Bool) : QAResponse V :=
  if ¬st.isInitialized then
    ⟨false, none, "系统未初始化，请先调用initialize()方法", [], "",
      some "System not initialized"⟩
  else
    let k := resolveTopK cfg.maxRetrievalDocs topK
    match searchStore orc.encode orc.normalize orc.ip st.vectorStore question k with
    | .error e =>
      ⟨false, some question, "抱歉，回答问题时报错: " ++ e.str, [], "", some e.str⟩
    | .ok refs =>
      let context := if !refs.isEmpty && includeRefs then buildContext refs else ""
      let gen := if context ≠ "" then ragChat orc.net question context none
                 else chat orc.net question none []
      match gen with
      | .error e =>
        ⟨false, some question, "抱歉，回答问题时报错: " ++ e.str, [], "", some e.str⟩
      | .ok answer =>
        ⟨true, some question, answer, if includeRefs then refs else [],
          if includeRefs then context else "", none⟩

/-! ## Concrete sample data used by witnesses and counterexamples -/

/-- A sample chunk. -/
def chunkA : Chunk := ⟨"doc1.txt", "Paris is the capital of France.", 0, "txt"⟩

/-- A second sample chunk. -/
def chunkB : Chunk := ⟨"doc1.txt", "It is known for the Eiffel Tower.", 1, "txt"⟩

/-- A store holding one vector and the matching single chunk. -/
def sampleStore : VectorStore Int := ⟨true, some ⟨[7]⟩, [chunkA]⟩

/-- An embedding oracle mapping every text to the constant vector `k`. -/
def encodeConst (k : Int) : List String → Except PyErr (List Int) :=
  fun ts => .ok (ts.map (fun _ => k))

/-- An embedding oracle whose model call raises. -/
def encodeFail : List String → Except PyErr (List Int) :=
  fun _ => .error (.runtimeError "模型初始化失败")

/-- Integer inner product on the 1-dimensional sample vectors. -/
def mulIP : Int → Int → Int := (· * ·)

/-- A network oracle: HTTP 500 on the first two attempts, a well-formed
reply on the third. -/
def netThirdTimeLucky : Nat → ApiResp :=
  fun n => if n < 2 then .transportErr "500 Server Error" else .ok ["  answer  "] none

/-- The chunker counterexample text for C4:
three sentences of lengths 10, 10 and 2. -/
def textC4 : List Char :=
  ['a','a','a','a','a','a','a','a','a','.',
   'b','b','b','b','b','b','b','b','b','.','c','.']

/-- The chunk `splitText 10 5 textC4` emits second: the overlap seed of
the first chunk plus the second sentence, 16 characters. -/
def overflowChunk : List Char :=
  ['a','a','a','a','.',' ','b','b','b','b','b','b','b','b','b','.']

/-! ## C1: the parallel-array invariant -/

/-- C1 (counterexample).  The invariant is *not* preserved across a
build that fails partway: `build_index` replaces `self.chunks`
(line 65) before the embedding call (line 69), so when embedding raises
the new two-element chunk list sits next to the old one-vector index. -/
theorem C1_counterexample :
    (buildIndex true encodeFail id sampleStore [chunkA, chunkB]).1 =
      .error (.runtimeError "模型初始化失败") ∧
    ¬ countsInSync (buildIndex true encodeFail id sampleStore [chunkA, chunkB]).2 := by
  refine ⟨rfl, fun h => ?_⟩
  have h2 := h ⟨[7]⟩ rfl
  simp [buildIndex, sampleStore, encodeFail] at h2

/-- C1 (amended).  After every *successful* build the chunk count
equals the vector count and position `i`'s vector is the normalized
embedding of chunk `i`'s content (the index is exactly the normalized
image of the embedding batch of the chunk contents, in order); a
successful save writes exactly that pair of artifacts, and loading them
back restores exactly that index and chunk list, so the invariant is
preserved across successful build/save/load cycles.  (It is not
preserved across partially failed ones — see the counterexample.) -/
theorem C1_parallel_invariant_amended {V : Type}
    (encode : List String → Except PyErr (List V)) (normalize : V → V)
    (st st0 : VectorStore V) (cs : List Chunk) (embs : List V)
    (fs : ArtifactStore V)
    (hm : st.modelLoaded = true)
    (he : encode (cs.map (·.content)) = .ok embs)
    (hlen : embs.length = cs.length) (hne : embs ≠ []) :
    buildIndex true encode normalize st cs =
      (.ok (), { st with chunks := cs, index := some ⟨embs.map normalize⟩ }) ∧
    countsInSync { st with chunks := cs, index := some (⟨embs.map normalize⟩ : FaissIndexIP V) } ∧
    saveIndex { st with chunks := cs, index := some (⟨embs.map normalize⟩ : FaissIndexIP V) } fs
      true true = (.ok (), ⟨some (embs.map normalize), some cs⟩) ∧
    loadIndex true ⟨some (embs.map normalize), some cs⟩ st0 =
      (.ok (), { st0 with index := some ⟨embs.map normalize⟩, chunks := cs }) ∧
    countsInSync { st0 with index := some (⟨embs.map normalize⟩ : FaissIndexIP V), chunks := cs } := by
  obtain ⟨e, embs, rfl⟩ : ∃ e rest, embs = e :: rest := by
    cases embs with
    | nil => exact absurd rfl hne
    | cons e rest => exact ⟨e, rest, rfl⟩
  refine ⟨?_, ?_, ?_, ?_, ?_⟩
  · simp [buildIndex, hm, he]
  · intro idx h
    cases h
    simpa using hlen
  · simp [saveIndex]
  · simp [loadIndex]
  · intro idx h
    cases h
    simpa using hlen

/-- C1 (witness): the amended theorem applied to a concrete store,
embedding oracle and chunk list. -/
theorem C1_witness :
    buildIndex true (encodeConst 2) id sampleStore [chunkA, chunkB] =
      (.ok (), (⟨true, some ⟨[2, 2]⟩, [chunkA, chunkB]⟩ : VectorStore Int)) ∧
    countsInSync (⟨true, some ⟨[2, 2]⟩, [chunkA, chunkB]⟩ : VectorStore Int) ∧
    saveIndex (⟨true, some ⟨[2, 2]⟩, [chunkA, chunkB]⟩ : VectorStore Int)
      ⟨none, none⟩ true true = (.ok (), ⟨some [2, 2], some [chunkA, chunkB]⟩) ∧
    loadIndex true ⟨some [2, 2], some [chunkA, chunkB]⟩ sampleStore =
      (.ok (), (⟨true, some ⟨[2, 2]⟩, [chunkA, chunkB]⟩ : VectorStore Int)) ∧
    countsInSync (⟨true, some ⟨[2, 2]⟩, [chunkA, chunkB]⟩ : VectorStore Int) :=
  C1_parallel_invariant_amended (encodeConst 2) id sampleStore sampleStore
    [chunkA, chunkB] [2, 2] ⟨none, none⟩ rfl rfl rfl (by simp)

/-! ## C2: search result counts and positions

Helper lemmas about the FAISS search model and the result loop. -/

theorem insertDesc_length (x : Int × Int) (l : List (Int × Int)) :
    (insertDesc x l).length = l.length + 1 := by
  induction l with
  | nil => rfl
  | cons y ys ih => by_cases h : x.1 > y.1 <;> simp [insertDesc, h, ih]

theorem foldl_insertDesc_length (l acc : List (Int × Int)) :
    (l.foldl (fun a x => insertDesc x a) acc).length = acc.length + l.length := by
  induction l generalizing acc with
  | nil => simp
  | cons x xs ih => simp [ih, insertDesc_length]; omega

theorem sortDesc_length (l : List (Int × Int)) : (sortDesc l).length = l.length := by
  simpa [sortDesc] using foldl_insertDesc_length l []

theorem mem_insertDesc {y x : Int × Int} {l : List (Int × Int)}
    (h : y ∈ insertDesc x l) : y = x ∨ y ∈ l := by
  induction l with
  | nil => simpa [insertDesc] using h
  | cons z zs ih =>
    simp only [insertDesc] at h
    split at h
    · rcases List.mem_cons.mp h with h1 | h1
      · exact Or.inl h1
      · exact Or.inr h1
    · rcases List.mem_cons.mp h with h1 | h1
      · exact Or.inr (List.mem_cons.mpr (Or.inl h1))
      · rcases ih h1 with h2 | h2
        · exact Or.inl h2
        · exact Or.inr (List.mem_cons.mpr (Or.inr h2))

theorem mem_foldl_insertDesc {y : Int × Int} :
    ∀ (l acc : List (Int × Int)), y ∈ l.foldl (fun a x => insertDesc x a) acc →
      y ∈ acc ∨ y ∈ l := by
  intro l
  induction l with
  | nil => intro acc h; simpa using h
  | cons x xs ih =>
    intro acc h
    rcases ih (insertDesc x acc) h with h2 | h2
    · rcases mem_insertDesc h2 with h3 | h3
      · exact Or.inr (by simp [h3])
      · exact Or.inl h3
    · exact Or.inr (List.mem_cons_of_mem x h2)

theorem mem_sortDesc {y : Int × Int} {l : List (Int × Int)}
    (h : y ∈ sortDesc l) : y ∈ l := by
  rcases mem_foldl_insertDesc l [] h with h2 | h2
  · simp at h2
  · exact h2

theorem pyIndex_ok_mem {α : Type} {l : List α} {i : Int} {a : α}
    (h : pyIndex l i = .ok a) : a ∈ l := by
  unfold pyIndex at h
  by_cases h1 : i < 0
  · rw [if_pos h1] at h
    by_cases h2 : (l.length : Int) + i < 0
    · rw [if_pos h2] at h; cases h
    · rw [if_neg h2] at h
      cases hg : l.get? ((l.length : Int) + i).toNat with
      | none => rw [hg] at h; cases h
      | some b => rw [hg] at h; cases h; exact List.get?_mem hg
  · rw [if_neg h1] at h
    cases hg : l.get? i.toNat with
    | none => rw [hg] at h; cases h
    | some b => rw [hg] at h; cases h; exact List.get?_mem hg

theorem pyIndex_ok_of_range {α : Type} (l : List α) (i : Int)
    (h1 : -(l.length : Int) ≤ i) (h2 : i < (l.length : Int)) :
    ∃ a, pyIndex l i = .ok a := by
  unfold pyIndex
  by_cases hneg : i < 0
  · have hjlt : ((l.length : Int) + i).toNat < l.length := by omega
    rw [if_pos hneg, if_neg (by omega : ¬ ((l.length : Int) + i < 0)),
      List.get?_eq_get hjlt]
    exact ⟨_, rfl⟩
  · have hjlt : i.toNat < l.length := by omega
    rw [if_neg hneg, List.get?_eq_get hjlt]
    exact ⟨_, rfl⟩

theorem collectResults_ok {V : Type} (chunks : List Chunk) (hne : chunks ≠ []) :
    ∀ pairs : List (Int × Int),
      (∀ p ∈ pairs, p.2 = -1 ∨ (0 ≤ p.2 ∧ p.2 < (chunks.length : Int))) →
      ∃ rs, collectResults (V := V) chunks pairs = .ok rs ∧
        rs.length = pairs.length ∧ ∀ r ∈ rs, r.chunk ∈ chunks := by
  intro pairs
  induction pairs with
  | nil => exact fun _ => ⟨[], rfl, rfl, by simp⟩
  | cons p rest ih =>
    intro hp
    obtain ⟨s, i⟩ := p
    have hlen : 1 ≤ chunks.length := by
      cases chunks with
      | nil => exact absurd rfl hne
      | cons _ _ => simp
    have hrange : i = -1 ∨ (0 ≤ i ∧ i < (chunks.length : Int)) := by
      simpa using hp (s, i) (by simp)
    have hlt : i < (chunks.length : Int) := by
      rcases hrange with h | h
      · omega
      · exact h.2
    have hge : -(chunks.length : Int) ≤ i := by
      rcases hrange with h | h
      · omega
      · omega
    obtain ⟨a, ha⟩ := pyIndex_ok_of_range chunks i hge hlt
    obtain ⟨rs, hrs, hlen2, hmem⟩ := ih (fun q hq => hp q (List.mem_cons_of_mem _ hq))
    refine ⟨⟨a, s⟩ :: rs, ?_, by simp [hlen2], ?_⟩
    · simp only [collectResults, if_pos hlt, ha, hrs]
    · intro r hr
      rcases List.mem_cons.mp hr with h | h
      · rw [h]; exact pyIndex_ok_mem ha
      · exact hmem r h

theorem faissSearch_pairs {V : Type} (ip : V → V → Int) (idx : FaissIndexIP V)
    (q : V) (k : Int) (hk : 1 ≤ k) :
    ∃ pairs, faissSearchIP ip idx q k = .ok pairs ∧ pairs.length = k.toNat ∧
      ∀ p ∈ pairs, p.2 = -1 ∨ (0 ≤ p.2 ∧ p.2 < (idx.vecs.length : Int)) := by
  unfold faissSearchIP
  rw [if_neg (by omega)]
  refine ⟨_, rfl, ?_, ?_⟩
  · have h1 : (sortDesc (idx.vecs.enum.map (fun p => (ip q p.2, (p.1 : Int))))).length =
        idx.vecs.length := by
      rw [sortDesc_length, List.length_map, List.enum_length]
    simp only [List.length_append, List.length_take, List.length_replicate, h1]
    omega
  · intro p hp
    rcases List.mem_append.mp hp with h | h
    · have h2 := mem_sortDesc (List.take_subset _ _ h)
      obtain ⟨⟨i, v⟩, hmem, heq⟩ := List.mem_map.mp h2
      have hi : i < idx.vecs.length := by
        have h3 := List.mk_mem_enum_iff_getElem?.mp hmem
        have h4 := List.getElem?_eq_some.mp h3
        exact h4.1
      right
      rw [← heq]
      refine ⟨Int.ofNat_nonneg i, ?_⟩
      show (i : Int) < (idx.vecs.length : Int)
      exact_mod_cast hi
    · left
      have := List.eq_of_mem_replicate h
      rw [this]

/-- C2 (counterexample).  With one indexed vector, one stored chunk and
`top_k = 2`, `search` returns **two** results — more than
`min(top_k, index_size) = 1`: the FAISS padding entry `(idx = -1)`
passes the `idx < len(self.chunks)` check and Python's negative
indexing resolves it to the last stored chunk, with the sentinel score.
Also, `top_k = 0` is not clamped to 1: FAISS raises. -/
theorem C2_counterexample :
    searchStore (fun _ => .ok [(3 : Int)]) id mulIP sampleStore "q" 2 =
      .ok [⟨chunkA, 21⟩, ⟨chunkA, negInfScore⟩] ∧
    ¬ ((2 : Nat) ≤ min 2 1) ∧
    searchStore (fun _ => .ok [(3 : Int)]) id mulIP sampleStore "q" 0 =
      .error (.runtimeError "Error: 'k > 0' failed") := by
  refine ⟨rfl, by decide, rfl⟩

/-- C2 (amended).  `search` on a built, non-empty index with
`top_k ≥ 1` returns exactly `top_k` results (not
`min(top_k, index_size)`): positions in range resolve to their chunks,
and when `top_k` exceeds the index size the FAISS padding positions
`-1` pass the defensive bound check `idx < len(chunks)` and resolve,
by Python negative indexing, to the last stored chunk.  Every returned
result is therefore some stored chunk, but padding duplicates are
possible.  `top_k ≤ 0` is not clamped: FAISS raises. -/
theorem C2_search_results_amended {V : Type}
    (encode : List String → Except PyErr (List V)) (normalize : V → V)
    (ip : V → V → Int) (st : VectorStore V) (q : String) (k : Int)
    (idx : FaissIndexIP V) (qe : V)
    (hidx : st.index = some idx) (hn : idx.vecs.length = st.chunks.length)
    (hne : st.chunks ≠ []) (hq : encode [q] = .ok [qe]) (hk : 1 ≤ k) :
    (∀ k2 : Int, k2 ≤ 0 → searchStore encode normalize ip st q k2 =
      .error (.runtimeError "Error: 'k > 0' failed")) ∧
    ∃ rs, searchStore encode normalize ip st q k = .ok rs ∧
      rs.length = k.toNat ∧ ∀ r ∈ rs, r.chunk ∈ st.chunks := by
  constructor
  · intro k2 hk2
    simp [searchStore, hidx, hq, faissSearchIP, if_pos hk2]
  · obtain ⟨pairs, hpairs, hplen, hprange⟩ := faissSearch_pairs ip idx (normalize qe) k hk
    have hprange2 : ∀ p ∈ pairs, p.2 = -1 ∨ (0 ≤ p.2 ∧ p.2 < (st.chunks.length : Int)) := by
      intro p hp
      rcases hprange p hp with h | h
      · exact Or.inl h
      · exact Or.inr ⟨h.1, by rw [← hn]; exact_mod_cast h.2⟩
    obtain ⟨rs, hrs, hlen, hmem⟩ := collectResults_ok (V := V) st.chunks hne pairs hprange2
    refine ⟨rs, ?_, by rw [hlen, hplen], hmem⟩
    simp only [searchStore, hidx, hq, hpairs, hrs]

/-- C2 (witness): the amended theorem at the one-vector sample store
with `top_k = 2`. -/
theorem C2_witness :
    (∀ k2 : Int, k2 ≤ 0 → searchStore (fun _ => .ok [(3 : Int)]) id mulIP sampleStore "q" k2 =
      .error (.runtimeError "Error: 'k > 0' failed")) ∧
    ∃ rs, searchStore (fun _ => .ok [(3 : Int)]) id mulIP sampleStore "q" 2 = .ok rs ∧
      rs.length = (2 : Int).toNat ∧ ∀ r ∈ rs, r.chunk ∈ sampleStore.chunks :=
  C2_search_results_amended (fun _ => .ok [(3 : Int)]) id mulIP sampleStore "q" 2
    ⟨[7]⟩ 3 rfl rfl (by simp [sampleStore]) rfl (by omega)

/-! ## C5: build on an empty corpus -/

/-- C5 (counterexample).  `build_index([])` does not fail with a
designated `EmptyCorpus` error: there is no emptiness check in the
code.  The empty chunk list is installed and the call fails with an
incidental `IndexError` from reading the embedding dimension of the
empty batch. -/
theorem C5_counterexample :
    (buildIndex true (encodeConst 2) id sampleStore []).1 ≠ .error .emptyCorpus ∧
    (buildIndex true (encodeConst 2) id sampleStore []).1 =
      .error (.indexError "tuple index out of range") ∧
    (buildIndex true (encodeConst 2) id sampleStore []).2.chunks = [] := by
  refine ⟨?_, rfl, rfl⟩
  intro h
  simp [buildIndex, sampleStore, encodeConst] at h

/-- C5 (amended).  `build` on an empty chunk sequence does fail, but
with an incidental `IndexError` (reading `embeddings.shape[1]` of an
empty batch), not a designated `EmptyCorpus` error — and by the time it
fails the store's chunk list has already been replaced by the empty
list, while the old index remains. -/
theorem C5_empty_build_amended {V : Type}
    (encode : List String → Except PyErr (List V)) (normalize : V → V)
    (st : VectorStore V)
    (hm : st.modelLoaded = true) (he : encode [] = .ok ([] : List V)) :
    buildIndex true encode normalize st [] =
      (.error (.indexError "tuple index out of range"), { st with chunks := [] }) ∧
    PyErr.indexError "tuple index out of range" ≠ .emptyCorpus := by
  refine ⟨?_, by simp⟩
  simp [buildIndex, hm, he]

/-- C5 (witness): the amended theorem at a concrete store and oracle. -/
theorem C5_witness :
    buildIndex true (encodeConst 2) id sampleStore [] =
      (.error (.indexError "tuple index out of range"),
        { sampleStore with chunks := [] }) ∧
    PyErr.indexError "tuple index out of range" ≠ .emptyCorpus :=
  C5_empty_build_amended (encodeConst 2) id sampleStore rfl rfl

/-! ## C6: load with missing or inconsistent artifacts -/

/-- C6 (counterexample).  `load_index` performs no consistency check:
artifacts holding two vectors but one chunk load *successfully* — no
`CorruptIndex` error — leaving the counts out of sync. -/
theorem C6_counterexample :
    loadIndex true (⟨some [1, 2], some [chunkA]⟩ : ArtifactStore Int) ⟨true, none, []⟩ =
      (.ok (), ⟨true, some ⟨[1, 2]⟩, [chunkA]⟩) ∧
    ¬ countsInSync (⟨true, some ⟨[1, 2]⟩, [chunkA]⟩ : VectorStore Int) := by
  refine ⟨rfl, fun h => ?_⟩
  have h2 := h ⟨[1, 2]⟩ rfl
  simp at h2

/-- C6 (amended).  `load` fails with `FileNotFoundError` when either
artifact is missing (raised explicitly for the vector file; raised by
`open` for the chunk file, after the vector structure has already been
replaced), and performs *no* count check: whenever both artifacts are
present the load succeeds, whatever their respective counts. -/
theorem C6_load_amended {V : Type} (fs : ArtifactStore V) (st : VectorStore V)
    (vs : List V) (cs : List Chunk) :
    (fs.faissFile = none →
      loadIndex true fs st = (.error (.fileNotFoundError "索引文件不存在"), st)) ∧
    (fs.faissFile = some vs → fs.chunksFile = none →
      loadIndex true fs st =
        (.error (.fileNotFoundError "chunks.pkl"), { st with index := some ⟨vs⟩ })) ∧
    (fs.faissFile = some vs → fs.chunksFile = some cs →
      loadIndex true fs st = (.ok (), { st with index := some ⟨vs⟩, chunks := cs })) := by
  refine ⟨fun h1 => ?_, fun h1 h2 => ?_, fun h1 h2 => ?_⟩
  · simp [loadIndex, h1]
  · simp [loadIndex, h1, h2]
  · simp [loadIndex, h1, h2]

/-- C6 (witness): the amended theorem applied to mismatched concrete
artifacts (two vectors, one chunk): the load succeeds. -/
theorem C6_witness :
    loadIndex true (⟨some [1, 2], some [chunkA]⟩ : ArtifactStore Int) ⟨true, none, []⟩ =
      (.ok (), { (⟨true, none, []⟩ : VectorStore Int) with
                 index := some ⟨[1, 2]⟩, chunks := [chunkA] }) :=
  (C6_load_amended ⟨some [1, 2], some [chunkA]⟩ ⟨true, none, []⟩ [1, 2] [chunkA]).2.2
    rfl rfl

/-! ## C7: atomicity of save -/

/-- C7 (counterexample).  `save_index` is not atomic: with prior
artifacts in place, a failure of the second write (chunks.pkl) after a
successful first write leaves the *new* vector artifact next to the
*old* chunk artifact, and the error raised is the raw write failure,
not a designated `SaveFailed`. -/
theorem C7_counterexample :
    saveIndex sampleStore (⟨some [9], some [chunkB]⟩ : ArtifactStore Int) true false =
      (.error (.exception "pickle dump failed"), ⟨some [7], some [chunkB]⟩) ∧
    (⟨some [7], some [chunkB]⟩ : ArtifactStore Int) ≠ ⟨some [9], some [chunkB]⟩ ∧
    PyErr.exception "pickle dump failed" ≠ .saveFailed := by
  refine ⟨rfl, by simp, by simp⟩

/-- C7 (amended).  `save` writes the two artifacts sequentially with no
atomicity: if the first write fails the prior artifacts are untouched;
if the second write fails the target holds the new vector artifact
beside whatever chunk artifact was there before; only when both writes
succeed do the two artifacts reflect the same build.  Failures
propagate as the raw underlying error (no designated `SaveFailed`), and
the in-memory store is never mutated by `save`. -/
theorem C7_save_amended {V : Type} (st : VectorStore V) (fs : ArtifactStore V)
    (idx : FaissIndexIP V) (h : st.index = some idx) :
    (∀ w2, saveIndex st fs false w2 = (.error (.exception "write_index failed"), fs)) ∧
    saveIndex st fs true false =
      (.error (.exception "pickle dump failed"), { fs with faissFile := some idx.vecs }) ∧
    saveIndex st fs true true = (.ok (), ⟨some idx.vecs, some st.chunks⟩) := by
  refine ⟨fun w2 => ?_, ?_, ?_⟩ <;> simp [saveIndex, h]

/-- C7 (witness): the amended theorem at the concrete sample store. -/
theorem C7_witness :
    (∀ w2, saveIndex sampleStore (⟨some [9], some [chunkB]⟩ : ArtifactStore Int) false w2 =
      (.error (.exception "write_index failed"), ⟨some [9], some [chunkB]⟩)) ∧
    saveIndex sampleStore (⟨some [9], some [chunkB]⟩ : ArtifactStore Int) true false =
      (.error (.exception "pickle dump failed"),
        { (⟨some [9], some [chunkB]⟩ : ArtifactStore Int) with faissFile := some [7] }) ∧
    saveIndex sampleStore (⟨some [9], some [chunkB]⟩ : ArtifactStore Int) true true =
      (.ok (), ⟨some [7], some [chunkA]⟩) :=
  C7_save_amended sampleStore ⟨some [9], some [chunkB]⟩ ⟨[7]⟩ rfl

/-! ## C8: retry policy of the generation client -/

/-- C8 (confirmed).  `generate_response` retries transport failures
(timeouts, connection errors, non-2xx statuses raised by
`raise_for_status`) up to exactly 3 attempts: failing twice and
succeeding on the third attempt yields the stripped reply having used
exactly 3 attempts; failing on all three attempts raises the
`已重试 3 次` generation failure reporting 3 attempts.  A decoded body
without usable `choices` is surfaced immediately on the first attempt
— as the service-reported error when the body carries an `error`
payload, as a parse failure otherwise — with no retry. -/
theorem C8_retry_policy (resp : Nat → ApiResp) :
    (∀ e0 e1 c rest ef, resp 0 = .transportErr e0 → resp 1 = .transportErr e1 →
      resp 2 = .ok (c :: rest) ef →
      generateResponse resp = (.ok (pyStrip c), 3)) ∧
    (∀ e0 e1 e2, resp 0 = .transportErr e0 → resp 1 = .transportErr e1 →
      resp 2 = .transportErr e2 →
      generateResponse resp =
        (.error (.exception ("API请求失败，已重试 3 次: " ++ e2)), 3)) ∧
    (∀ m, resp 0 = .ok [] (some m) →
      generateResponse resp = (.error (.exception ("API返回错误: " ++ m)), 1)) ∧
    (resp 0 = .ok [] none →
      generateResponse resp =
        (.error (.exception "API响应解析失败: API响应格式异常"), 1)) := by
  refine ⟨fun e0 e1 c rest ef h0 h1 h2 => ?_, fun e0 e1 e2 h0 h1 h2 => ?_,
    fun m h0 => ?_, fun h0 => ?_⟩
  · simp [generateResponse, genLoop, h0, h1, h2]
  · simp [generateResponse, genLoop, h0, h1, h2]
  · simp [generateResponse, genLoop, h0]
  · simp [generateResponse, genLoop, h0]

/-- C8 (witness): the retry-then-succeed scenario at a concrete
network oracle (HTTP 500, HTTP 500, then a well-formed reply). -/
theorem C8_witness :
    generateResponse netThirdTimeLucky = (.ok (pyStrip "  answer  "), 3) :=
  (C8_retry_policy netThirdTimeLucky).1 "500 Server Error" "500 Server Error"
    "  answer  " [] none rfl rfl rfl

/-! ## C9: the orchestrator never raises -/

/-- C9 (confirmed).  `ask_question` is total — in this embedding every
collaborator failure is an `Except.error` value and `askQuestion`
always returns a `QAResponse`, mirroring the `try/except` boundary:
(1) called while not initialized it returns the `success = false`
"not initialized" response without raising; (2) whenever the returned
response has `success = false` it carries an error detail; (3) a
retrieval failure is converted to a `success = false` response whose
answer is the human-readable `抱歉` message and whose `error` is the
exception detail; (4) likewise a generation failure. -/
theorem C9_askQuestion_never_raises {V : Type} (orc : Oracles V) (cfg : ConfigT)
    (st : RAGSystem V) (q : String) (topK : Option Int) (ir : Bool) :
    (st.isInitialized = false →
      askQuestion orc cfg st q topK ir =
        ⟨false, none, "系统未初始化，请先调用initialize()方法", [], "",
          some "System not initialized"⟩) ∧
    ((askQuestion orc cfg st q topK ir).success = false →
      ∃ msg, (askQuestion orc cfg st q topK ir).error = some msg) ∧
    (st.isInitialized = true → ∀ e : PyErr,
      searchStore orc.encode orc.normalize orc.ip st.vectorStore q
        (resolveTopK cfg.maxRetrievalDocs topK) = .error e →
      askQuestion orc cfg st q topK ir =
        ⟨false, some q, "抱歉，回答问题时报错: " ++ e.str, [], "", some e.str⟩) ∧
    (st.isInitialized = true → ∀ (refs : List (SearchResult V)) (e : PyErr),
      searchStore orc.encode orc.normalize orc.ip st.vectorStore q
        (resolveTopK cfg.maxRetrievalDocs topK) = .ok refs →
      (if (if !refs.isEmpty && ir then buildContext refs else "") ≠ "" then
        ragChat orc.net q (if !refs.isEmpty && ir then buildContext refs else "") none
       else chat orc.net q none []) = .error e →
      askQuestion orc cfg st q topK ir =
        ⟨false, some q, "抱歉，回答问题时报错: " ++ e.str, [], "", some e.str⟩) := by
  refine ⟨fun hinit => ?_, fun hfail => ?_, fun hinit e hs => ?_,
    fun hinit refs e hok hgen => ?_⟩
  · simp [askQuestion, hinit]
  · by_cases hinit : st.isInitialized = true
    · revert hfail
      simp only [askQuestion, hinit]
      rw [if_neg (by simp)]
      cases hs : searchStore orc.encode orc.normalize orc.ip st.vectorStore q
          (resolveTopK cfg.maxRetrievalDocs topK) with
      | error e => intro _; exact ⟨e.str, rfl⟩
      | ok refs =>
        simp only
        cases hg : (if (if !refs.isEmpty && ir then buildContext refs else "") ≠ "" then
            ragChat orc.net q (if !refs.isEmpty && ir then buildContext refs else "") none
          else chat orc.net q none []) with
        | error e => intro _; exact ⟨e.str, rfl⟩
        | ok ans => intro hfail; cases hfail
    · have hinit2 : st.isInitialized = false := by
        cases h : st.isInitialized
        · rfl
        · exact absurd h hinit
      simp [askQuestion, hinit2]
  · simp [askQuestion, hinit, hs]
  · simp only [askQuestion, hinit]
    rw [if_neg (by simp), hok]
    simp only
    rw [hgen]

/-- C9 (witness): a concrete call whose retrieval raises (the embedding
model call fails) is converted to a structured failure response. -/
theorem C9_witness :
    askQuestion (V := Int) ⟨encodeFail, id, mulIP, fun _ _ => .ok ["a"] none⟩
      defaultConfig ⟨true, sampleStore⟩ "q" none true =
      ⟨false, some "q", "抱歉，回答问题时报错: " ++ (PyErr.runtimeError "模型初始化失败").str,
        [], "", some (PyErr.runtimeError "模型初始化失败").str⟩ :=
  (C9_askQuestion_never_raises ⟨encodeFail, id, mulIP, fun _ _ => .ok ["a"] none⟩
    defaultConfig ⟨true, sampleStore⟩ "q" none true).2.2.1 rfl
    (.runtimeError "模型初始化失败") rfl

/-! ## C10: top_k = 0 / None resolves to the configured default -/

/-- C10 (confirmed).  `top_k = top_k or Config.MAX_RETRIEVAL_DOCS`
(line 112) treats both an omitted `top_k` (`None`) and `top_k = 0` as
unset: the configured default retrieval count is used, so the whole
`askQuestion` call behaves identically for `top_k = 0` and for an
omitted `top_k` — a caller cannot request an empty retrieval via
`top_k = 0`. -/
theorem C10_topk_zero_default {V : Type} (orc : Oracles V) (cfg : ConfigT)
    (st : RAGSystem V) (q : String) (ir : Bool) :
    askQuestion orc cfg st q (some 0) ir = askQuestion orc cfg st q none ir ∧
    resolveTopK cfg.maxRetrievalDocs (some 0) = cfg.maxRetrievalDocs ∧
    resolveTopK cfg.maxRetrievalDocs none = cfg.maxRetrievalDocs := by
  refine ⟨?_, rfl, rfl⟩
  simp [askQuestion, resolveTopK]

/-! ## Chunker lemmas

Facts about `stripChars` and the accumulation loop, used by C3 and
C4.  `pySpace` is abbreviated `p` in the comments. -/

theorem dropWhile_length_le (p : Char → Bool) (l : List Char) :
    (l.dropWhile p).length ≤ l.length := by
  induction l with
  | nil => simp
  | cons c r ih =>
    rw [List.dropWhile_cons]
    split
    · simp only [List.length_cons]; omega
    · exact Nat.le_refl _

theorem dropWhile_eq_self_of_head (p : Char → Bool) (l : List Char)
    (h : ∀ c, l.head? = some c → p c = false) : l.dropWhile p = l := by
  cases l with
  | nil => rfl
  | cons c r => rw [List.dropWhile_cons, if_neg (by simp [h c rfl])]

theorem head?_dropWhile_false (p : Char → Bool) (l : List Char) (c : Char)
    (h : (l.dropWhile p).head? = some c) : p c = false := by
  have h2 := List.head?_dropWhile_not p l
  rw [h] at h2
  exact h2

theorem getLast?_dropWhile (p : Char → Bool) (l : List Char)
    (h : l.dropWhile p ≠ []) : (l.dropWhile p).getLast? = l.getLast? := by
  conv_rhs => rw [← List.takeWhile_append_dropWhile (p := p) (l := l)]
  exact (List.getLast?_append_of_ne_nil _ h).symm

theorem stripChars_append_space (l : List Char) :
    stripChars (l ++ [' ']) = stripChars l := by
  unfold stripChars dropTrail
  have h : (l ++ [' ']).reverse.dropWhile pySpace = l.reverse.dropWhile pySpace := by
    rw [List.reverse_append]
    rfl
  rw [h]

theorem stripChars_head_false (s : List Char) (c : Char)
    (h : (stripChars s).head? = some c) : pySpace c = false :=
  head?_dropWhile_false pySpace (dropTrail s) c h

theorem stripChars_getLast_false (s : List Char) (c : Char)
    (h : (stripChars s).getLast? = some c) : pySpace c = false := by
  have hne : stripChars s ≠ [] := by
    intro h2; rw [h2] at h; cases h
  have h3 : (stripChars s).getLast? = (dropTrail s).getLast? :=
    getLast?_dropWhile pySpace (dropTrail s) hne
  have h4 : (dropTrail s).getLast? = (s.reverse.dropWhile pySpace).head? := by
    unfold dropTrail
    exact List.getLast?_reverse _
  rw [h3, h4] at h
  exact head?_dropWhile_false pySpace s.reverse c h

theorem stripChars_eq_self (l : List Char)
    (h1 : ∀ c, l.head? = some c → pySpace c = false)
    (h2 : ∀ c, l.getLast? = some c → pySpace c = false) : stripChars l = l := by
  have htrail : dropTrail l = l := by
    unfold dropTrail
    rw [dropWhile_eq_self_of_head pySpace l.reverse
      (fun c hc => h2 c (by rwa [List.head?_reverse] at hc))]
    exact List.reverse_reverse l
  unfold stripChars
  rw [htrail]
  exact dropWhile_eq_self_of_head pySpace l h1

theorem length_stripChars_le (l : List Char) : (stripChars l).length ≤ l.length := by
  unfold stripChars dropTrail
  calc ((l.reverse.dropWhile pySpace).reverse.dropWhile pySpace).length
      ≤ (l.reverse.dropWhile pySpace).reverse.length := dropWhile_length_le _ _
    _ = (l.reverse.dropWhile pySpace).length := List.length_reverse _
    _ ≤ l.reverse.length := dropWhile_length_le _ _
    _ = l.length := List.length_reverse _

theorem cleanedOf_cons (s : List Char) (ss : List (List Char)) :
    cleanedOf (s :: ss) =
      if stripChars s = [] then cleanedOf ss else stripChars s :: cleanedOf ss := by
  simp only [cleanedOf, List.map_cons, List.filter_cons]
  by_cases h : stripChars s = [] <;> simp [h]

/-- If every remaining sentence fits (the bound is on the single-space
join of the cleaned remaining sentences), the loop started on a
non-blank buffer `pre ++ " "` consumes them all into that one buffer
and emits exactly one chunk. -/
theorem splitTextLoop_fits (csize ov : Int) :
    ∀ (ss : List (List Char)) (pre : List Char), pre ≠ [] →
      (∀ c, pre.head? = some c → pySpace c = false) →
      (∀ c, pre.getLast? = some c → pySpace c = false) →
      ((pre.length : Int) + ((tailJoin (cleanedOf ss)).length : Int) ≤ csize) →
      splitTextLoop csize ov ss [] (pre ++ [' ']) = [pre ++ tailJoin (cleanedOf ss)] := by
  intro ss
  induction ss with
  | nil =>
    intro pre hne hhead hlast _
    show (if pre ++ [' '] ≠ [] then [stripChars (pre ++ [' '])] else []).reverse = _
    rw [if_pos (by simp), stripChars_append_space, stripChars_eq_self pre hhead hlast]
    simp [cleanedOf, tailJoin]
  | cons s rest ih =>
    intro pre hne hhead hlast hbound
    show splitTextLoop csize ov (s :: rest) [] (pre ++ [' ']) = _
    rw [splitTextLoop]
    by_cases hs : stripChars s = []
    · rw [if_pos hs]
      have hclean : cleanedOf (s :: rest) = cleanedOf rest := by
        rw [cleanedOf_cons, if_pos hs]
      rw [hclean] at hbound ⊢
      exact ih pre hne hhead hlast hbound
    · rw [if_neg hs]
      have hclean : cleanedOf (s :: rest) = stripChars s :: cleanedOf rest := by
        rw [cleanedOf_cons, if_neg hs]
      have htail : tailJoin (cleanedOf (s :: rest)) =
          ' ' :: (stripChars s ++ tailJoin (cleanedOf rest)) := by
        rw [hclean]; rfl
      have hlen : ((pre ++ [' ']).length : Int) + ((stripChars s).length : Int) ≤ csize := by
        rw [htail] at hbound
        simp only [List.length_append, List.length_cons, List.length_nil] at hbound ⊢
        push_cast at hbound ⊢
        omega
      rw [if_pos hlen]
      have hassoc : (pre ++ [' ']) ++ stripChars s ++ [' '] =
          (pre ++ ' ' :: stripChars s) ++ [' '] := by
        simp
      rw [hassoc]
      have hpre2 : pre ++ ' ' :: stripChars s ≠ [] := by simp
      have hhead2 : ∀ c, (pre ++ ' ' :: stripChars s).head? = some c → pySpace c = false := by
        intro c hc
        rw [List.head?_append_of_ne_nil _ hne] at hc
        exact hhead c hc
      have hlast2 : ∀ c, (pre ++ ' ' :: stripChars s).getLast? = some c →
          pySpace c = false := by
        intro c hc
        rw [List.getLast?_append_of_ne_nil _ (by simp : (' ' :: stripChars s) ≠ [])] at hc
        have hc2 : ([' '] ++ stripChars s).getLast? = some c := hc
        rw [List.getLast?_append_of_ne_nil _ hs] at hc2
        exact stripChars_getLast_false s c hc2
      have hbound2 : ((pre ++ ' ' :: stripChars s).length : Int) +
          ((tailJoin (cleanedOf rest)).length : Int) ≤ csize := by
        rw [htail] at hbound
        simp only [List.length_append, List.length_cons] at hbound ⊢
        push_cast at hbound ⊢
        omega
      rw [ih (pre ++ ' ' :: stripChars s) hpre2 hhead2 hlast2 hbound2, htail]
      simp

/-- Starting from an empty buffer: when the single-space join of all
cleaned sentences fits in `csize`, the loop emits exactly that join as
the single chunk (or nothing when every sentence is blank). -/
theorem splitTextLoop_start (csize ov : Int) :
    ∀ ss : List (List Char), ((joinAll (cleanedOf ss)).length : Int) ≤ csize →
      splitTextLoop csize ov ss [] [] =
        if cleanedOf ss = [] then [] else [joinAll (cleanedOf ss)] := by
  intro ss
  induction ss with
  | nil => intro _; rfl
  | cons s rest ih =>
    intro hbound
    rw [splitTextLoop]
    by_cases hs : stripChars s = []
    · have hclean : cleanedOf (s :: rest) = cleanedOf rest := by
        rw [cleanedOf_cons, if_pos hs]
      rw [hclean] at hbound
      rw [if_pos hs, hclean]
      exact ih hbound
    · have hclean : cleanedOf (s :: rest) = stripChars s :: cleanedOf rest := by
        rw [cleanedOf_cons, if_neg hs]
      have hjoin : joinAll (cleanedOf (s :: rest)) =
          stripChars s ++ tailJoin (cleanedOf rest) := by
        rw [hclean]; rfl
      have hlen : (([] : List Char).length : Int) + ((stripChars s).length : Int) ≤ csize := by
        rw [hjoin] at hbound
        simp only [List.length_append, List.length_nil] at hbound ⊢
        push_cast at hbound ⊢
        omega
      rw [if_neg hs, if_pos hlen]
      have hnil : ([] : List Char) ++ stripChars s ++ [' '] = stripChars s ++ [' '] := by simp
      rw [hnil]
      have hne2 : stripChars s ≠ [] := hs
      have hbound2 : (((stripChars s).length : Int)) +
          ((tailJoin (cleanedOf rest)).length : Int) ≤ csize := by
        rw [hjoin] at hbound
        simp only [List.length_append] at hbound
        push_cast at hbound ⊢
        omega
      rw [splitTextLoop_fits csize ov rest (stripChars s) hne2
        (stripChars_head_false s) (stripChars_getLast_false s) hbound2]
      rw [if_neg (by rw [hclean]; simp), hjoin]

/-! ## C3: short documents yield one chunk -/

/-- C3 (counterexample).  A document of length 5 ≤ `chunk_size` = 5
whose sentence boundary is not followed by whitespace: `"ab.cd"` splits
into the sentences `"ab."` and `"cd"`, and re-accumulation inserts a
space, so the guard `len("ab. ") + len("cd") ≤ 5` fails and `split`
yields **two** chunks — neither equal to the trimmed content. -/
theorem C3_counterexample :
    ((['a', 'b', '.', 'c', 'd'] : List Char).length : Int) ≤ 5 ∧
    splitText 5 0 ['a', 'b', '.', 'c', 'd'] = [['a', 'b', '.'], ['c', 'd']] ∧
    splitText 5 0 ['a', 'b', '.', 'c', 'd'] ≠
      [stripChars ['a', 'b', '.', 'c', 'd']] := by
  refine ⟨by decide, by decide, by decide⟩

/-- C3 (amended).  For every document whose content length is at most
`chunk_size` *and whose inter-sentence whitespace is exactly one space*
— equivalently, rejoining the code's sentence segmentation with single
spaces reproduces the trimmed content — and whose trimmed content is
non-empty, `split` yields exactly one chunk equal to the trimmed
content. -/
theorem C3_single_chunk_amended (csize ov : Int) (text : List Char)
    (hlen : (text.length : Int) ≤ csize)
    (hsep : joinAll (cleanedOf (splitSentences text)) = stripChars text)
    (hne : stripChars text ≠ []) :
    splitText csize ov text = [stripChars text] := by
  unfold splitText
  have h1 : ((joinAll (cleanedOf (splitSentences text))).length : Int) ≤ csize := by
    rw [hsep]
    have h2 := length_stripChars_le text
    have h3 : ((stripChars text).length : Int) ≤ (text.length : Int) := by exact_mod_cast h2
    omega
  rw [splitTextLoop_start csize ov (splitSentences text) h1]
  have h4 : cleanedOf (splitSentences text) ≠ [] := by
    intro h
    rw [h] at hsep
    exact hne (hsep.symm.trans rfl |>.symm ▸ rfl)
  rw [if_neg h4, hsep]

/-- C3 (witness): the amended theorem at `"ab. cd"` (single-space
separated), `chunk_size = 500`, `chunk_overlap = 50`: one chunk, equal
to the trimmed content. -/
theorem C3_witness :
    ((['a', 'b', '.', ' ', 'c', 'd'] : List Char).length : Int) ≤ 500 ∧
    splitText 500 50 ['a', 'b', '.', ' ', 'c', 'd'] =
      [stripChars ['a', 'b', '.', ' ', 'c', 'd']] :=
  ⟨by decide, C3_single_chunk_amended 500 50 ['a', 'b', '.', ' ', 'c', 'd']
    (by decide) (by decide) (by decide)⟩

/-! ## C4: chunk length bound -/

theorem le_maxSentLen : ∀ (ss : List (List Char)), ∀ s ∈ ss,
    ((stripChars s).length : Int) ≤ maxSentLen ss := by
  intro ss
  induction ss with
  | nil => intro s h; cases h
  | cons a rest ih =>
    intro s h
    rcases List.mem_cons.mp h with h | h
    · rw [h]
      exact le_max_left _ _
    · exact le_trans (ih s h) (le_max_right _ _)

/-- The invariant the accumulation loop maintains: every chunk it will
ever emit has length at most
`max chunk_size (max chunk_overlap 0 + 1 + L)`, `L` bounding the
stripped sentence lengths — the buffer is either within
`chunk_size + 1` (its trailing space is stripped on emission) or a
fresh overlap-seeded buffer of at most
`chunk_overlap + 1 + (one sentence)` characters plus its trailing
space. -/
theorem splitTextLoop_bound (csize ov L : Int) :
    ∀ (ss chunksRev : List (List Char)) (current : List Char),
      (∀ s ∈ ss, ((stripChars s).length : Int) ≤ L) →
      (∀ c ∈ chunksRev, (c.length : Int) ≤ max csize (max ov 0 + 1 + L)) →
      (current = [] ∨ ∃ x, current = x ++ [' '] ∧
        ((x.length : Int) ≤ csize ∨ (x.length : Int) ≤ max ov 0 + 1 + L)) →
      ∀ c ∈ splitTextLoop csize ov ss chunksRev current,
        (c.length : Int) ≤ max csize (max ov 0 + 1 + L) := by
  intro ss
  induction ss with
  | nil =>
    intro chunksRev current _ hchunks hcur c hc
    rw [splitTextLoop, List.mem_reverse] at hc
    rcases hcur with hcur | ⟨x, rfl, hx⟩
    · rw [hcur, if_neg (by simp)] at hc
      exact hchunks c hc
    · rw [if_pos (by simp)] at hc
      rcases List.mem_cons.mp hc with h | h
      · rw [h, stripChars_append_space]
        have h2 : ((stripChars x).length : Int) ≤ (x.length : Int) := by
          exact_mod_cast length_stripChars_le x
        rcases hx with hx | hx
        · exact le_trans h2 (le_trans hx (le_max_left _ _))
        · exact le_trans h2 (le_trans hx (le_max_right _ _))
      · exact hchunks c h
  | cons s rest ih =>
    intro chunksRev current hss hchunks hcur c hc
    have ht : ((stripChars s).length : Int) ≤ L := hss s (by simp)
    have hss2 : ∀ u ∈ rest, ((stripChars u).length : Int) ≤ L :=
      fun u hu => hss u (List.mem_cons_of_mem s hu)
    rw [splitTextLoop] at hc
    by_cases hs : stripChars s = []
    · rw [if_pos hs] at hc
      exact ih chunksRev current hss2 hchunks hcur c hc
    · rw [if_neg hs] at hc
      by_cases hfit : ((current.length : Int) + (stripChars s).length ≤ csize)
      · rw [if_pos hfit] at hc
        refine ih chunksRev (current ++ stripChars s ++ [' ']) hss2 hchunks ?_ c hc
        rcases hcur with hcur | ⟨x, rfl, _⟩
        · subst hcur
          refine Or.inr ⟨stripChars s, by simp, Or.inl ?_⟩
          simpa using hfit
        · refine Or.inr ⟨x ++ ' ' :: stripChars s, by simp, Or.inl ?_⟩
          simp only [List.length_append, List.length_cons] at hfit ⊢
          push_cast at hfit ⊢
          omega
      · rw [if_neg hfit] at hc
        have hchunks2 : ∀ c2 ∈ (if current ≠ [] then stripChars current :: chunksRev
            else chunksRev), (c2.length : Int) ≤ max csize (max ov 0 + 1 + L) := by
          intro c2 hc2
          rcases hcur with hcur | ⟨x, rfl, hx⟩
          · rw [hcur, if_neg (by simp)] at hc2
            exact hchunks c2 hc2
          · rw [if_pos (by simp)] at hc2
            rcases List.mem_cons.mp hc2 with h | h
            · rw [h, stripChars_append_space]
              have h2 : ((stripChars x).length : Int) ≤ (x.length : Int) := by
                exact_mod_cast length_stripChars_le x
              rcases hx with hx | hx
              · exact le_trans h2 (le_trans hx (le_max_left _ _))
              · exact le_trans h2 (le_trans hx (le_max_right _ _))
            · exact hchunks c2 h
        refine ih _ _ hss2 hchunks2 ?_ c hc
        by_cases hov : ov > 0
        · rw [if_pos hov]
          cases hcr : (if current ≠ [] then stripChars current :: chunksRev
              else chunksRev) with
          | nil =>
            refine Or.inr ⟨stripChars s, by simp, Or.inr ?_⟩
            have h0 : (0 : Int) ≤ max ov 0 := le_max_right _ _
            omega
          | cons lastChunk tl =>
            refine Or.inr ⟨lastChunk.drop ((lastChunk.length : Int) - ov).toNat ++
              ' ' :: stripChars s, by simp, Or.inr ?_⟩
            have hdl : (lastChunk.drop ((lastChunk.length : Int) - ov).toNat).length =
                lastChunk.length - ((lastChunk.length : Int) - ov).toNat :=
              List.length_drop _ _
            simp only [List.length_append, List.length_cons, hdl]
            have hmax : max ov 0 = ov := max_eq_left (by omega)
            rw [hmax]
            push_cast
            omega
        · rw [if_neg hov]
          refine Or.inr ⟨stripChars s, by simp, Or.inr ?_⟩
          have h0 : (0 : Int) ≤ max ov 0 := le_max_right _ _
          omega

/-- C4 (counterexample).  With `chunk_size = 10 > chunk_overlap = 5`
and three sentences of lengths 10, 10 and 2 — none longer than
`chunk_size` — `split` emits the 16-character chunk
`"aaaa. bbbbbbbbb."`: the overlap seed taken from the previous chunk
plus the next sentence exceeds `chunk_size` even though no single
sentence does, so a chunk consisting of a single over-long sentence is
*not* the only way a chunk exceeds `chunk_size`. -/
theorem C4_counterexample :
    (5 : Int) < 10 ∧
    overflowChunk ∈ splitText 10 5 textC4 ∧
    ¬ ((overflowChunk.length : Int) ≤ 10) ∧
    (∀ s ∈ cleanedOf (splitSentences textC4), ((s.length : Int) ≤ 10)) := by
  refine ⟨by decide, by decide, by decide, by decide⟩

/-- C4 (amended).  For every document and configuration with
`chunk_overlap < chunk_size`, every chunk produced by `split` has
length at most
`max chunk_size (max chunk_overlap 0 + 1 + longest sentence length)`:
a chunk may exceed `chunk_size` not only when a single sentence alone
exceeds it but also when an overlap seed plus a single sentence does;
in every other situation chunks stay within `chunk_size`. -/
theorem C4_chunk_bound_amended (csize ov : Int) (text : List Char)
    (_hov : ov < csize) :
    ∀ c ∈ splitText csize ov text,
      (c.length : Int) ≤ max csize (max ov 0 + 1 + maxSentLen (splitSentences text)) :=
  fun c hc =>
    splitTextLoop_bound csize ov (maxSentLen (splitSentences text))
      (splitSentences text) [] []
      (fun s hs => le_maxSentLen (splitSentences text) s hs)
      (by simp) (Or.inl rfl) c hc

/-- C4 (witness): the amended bound applied to the over-long chunk of
the counterexample text: 16 ≤ max 10 (5 + 1 + 10). -/
theorem C4_witness :
    (5 : Int) < 10 ∧
    ((overflowChunk.length : Int) ≤
      max 10 (max 5 0 + 1 + maxSentLen (splitSentences textC4))) :=
  ⟨by decide, C4_chunk_bound_amended 10 5 textC4 (by decide) overflowChunk (by decide)⟩

end RagQA
